import Mathlib

/-!
Shallow embedding of the `dgraph-conn` client driver (Rust) in Lean 4.

The embedding follows the source files `src/transaction.rs`, `src/client.rs`,
`src/error.rs` and `src/pool.rs`.  Network calls are modelled as oracle
values: every operation that performs an RPC takes the server's reply as an
explicit argument (`Except String _`, the error case standing for a gRPC
status error), and returns — besides its Rust return value — the updated
transaction state (Rust mutates through `&mut self`) and the list of RPC
calls it issued, so that claims about "no RPC is issued" or "exactly one
finalize RPC" can be stated and decided.

Rust `HashSet<String>` fields are modelled as duplicate-free `List String`
accumulated by `hsInsert` (insert-if-absent, string equality), which is the
set semantics of `HashSet::insert`; iteration order of a `HashSet` is
unspecified in Rust, the model fixes insertion order.

The protobuf-generated `api` module is not part of `src/`; the shapes of
`TxnContext`, `Request`, `Mutation` and `Response` below are modelled from
the spec (§3 DATA MODEL), with opaque payload fields kept as `String`.
-/

namespace Dgraph

/-- Modelled from the spec: `TxnContext` of the generated `api` module,
`{ start_ts, commit_ts, hash, aborted, keys, preds }`; `bytes` payloads are
modelled as `String`, the `u64` timestamps as `Nat` (only compared for
equality by this driver). -/
structure TxnContext where
  start_ts : Nat := 0
  commit_ts : Nat := 0
  hash : String := ""
  aborted : Bool := false
  keys : List String := []
  preds : List String := []
deriving Repr, DecidableEq

/-- `TxnContext::default()`: all fields at their protobuf defaults. -/
def TxnContext.default : TxnContext := {}

/-- Modelled from the spec: `Mutation` of the generated `api` module; the
payload is opaque to the driver, byte fields modelled as `String`. -/
structure Mutation where
  set_json : String := ""
  delete_json : String := ""
  set_nquads : String := ""
  del_nquads : String := ""
  cond : String := ""
  commit_now : Bool := false
deriving Repr, DecidableEq

/-- Modelled from the spec: `Request` of the generated `api` module;
`vars: mapping<string,string>` is modelled as an association list. -/
structure Request where
  query : String := ""
  vars : List (String × String) := []
  mutations : List Mutation := []
  start_ts : Nat := 0
  hash : String := ""
  commit_now : Bool := false
  read_only : Bool := false
  best_effort : Bool := false
deriving Repr, DecidableEq

/-- `Request::default()`. -/
def Request.default : Request := {}

/-- Modelled from the spec: `Response` of the generated `api` module,
`{ json: bytes, txn: optional<TxnContext>, latency, metrics: opaque }`;
the opaque latency/metrics fields play no role in the driver and are
omitted. -/
structure Response where
  json : String := ""
  txn : Option TxnContext := none
deriving Repr, DecidableEq

/-- The error enum of `src/error.rs`.  Variant payloads that wrap foreign
error types (`tonic::transport::Error`, `tonic::Status`, pool errors) are
modelled as their display strings. -/
inductive DgraphError where
  | Transport (msg : String)
  | Status (msg : String)
  | Pool (msg : String)
  | Transaction (msg : String)
  | InvalidArgument (msg : String)
  | PoolRunError (msg : String)
deriving Repr, DecidableEq

/-- `true` exactly on the `Transaction` variant of `DgraphError` — the
"transaction-protocol" error class of the spec's error taxonomy (§7). -/
def DgraphError.isTransactionClass : DgraphError → Bool
  | .Transaction _ => true
  | _ => false

/-- An RPC issued on a pooled connection: either `DgraphClient::query`
with the (already stamped) request, or `DgraphClient::commit_or_abort`
with the context it carries. -/
inductive RpcCall where
  | query (req : Request)
  | commitOrAbort (ctx : TxnContext)
deriving Repr, DecidableEq

/-- `HashSet<String>::insert`: add `k` to `s` unless already present
(string equality). -/
def hsInsert (s : List String) (k : String) : List String :=
  if k ∈ s then s else s ++ [k]

/-- The `Transaction` struct of `src/transaction.rs`.  The pooled
connection handle carries no data relevant to the embedding, so `conn` is
`Option Unit` (`Some` = holds a connection, `None` = `Default::default()`). -/
structure Transaction where
  keys : List String := []
  preds : List String := []
  ctx : TxnContext := {}
  finished : Bool := false
  mutated : Bool := false
  dropped : Bool := false
  conn : Option Unit := none
deriving Repr, DecidableEq

/-- `Transaction::default()` (derived `Default`): every field at its
default, in particular `conn = None`. -/
def Transaction.default : Transaction := {}

/-- `Transaction::new(conn)`. -/
def Transaction.new : Transaction :=
  { conn := some ()
    keys := []
    preds := []
    ctx := TxnContext.default
    finished := false
    mutated := false
    dropped := false }

/-- `Transaction::merge_context`.  Returns the updated transaction (Rust
mutates `&mut self`: the hash assignment happens even on the error path)
together with `none` on success or the returned error. -/
def Transaction.merge_context (t : Transaction) (c : TxnContext) :
    Transaction × Option DgraphError :=
  let t := { t with ctx := { t.ctx with hash := c.hash } }
  let t := if t.ctx.start_ts = 0 then
    { t with ctx := { t.ctx with start_ts := c.start_ts } } else t
  if t.ctx.start_ts ≠ c.start_ts then
    (t, some (DgraphError.InvalidArgument "Transaction start_ts mismatch"))
  else
    ({ t with keys := c.keys.foldl hsInsert t.keys
              preds := c.preds.foldl hsInsert t.preds }, none)

deriving instance DecidableEq for Except

/-- Result of a `Transaction::do_request` call: the transaction state after
the call, the Rust return value, and the RPCs issued during the call. -/
structure DoReqOut where
  txn : Transaction
  result : Except DgraphError Response
  calls : List RpcCall
deriving Repr, DecidableEq

/-- `Transaction::do_request`.  `reply` is the server's answer to the
(stamped) request: `.error s` models the RPC returning a gRPC status error,
which `?` converts into `DgraphError::Status`. -/
def Transaction.do_request (t : Transaction) (req : Request)
    (reply : Except String Response) : DoReqOut :=
  if t.finished then
    ⟨t, .error (DgraphError.InvalidArgument "Transaction already finished"), []⟩
  else
    let t := if req.mutations.isEmpty then t else { t with mutated := true }
    let req := { req with start_ts := t.ctx.start_ts, hash := t.ctx.hash }
    let t := { t with ctx := { t.ctx with hash := "" } }
    let commit_now := req.commit_now
    match reply with
    | .error s => ⟨t, .error (DgraphError.Status s), [RpcCall.query req]⟩
    | .ok response =>
      let t := if commit_now then { t with finished := true } else t
      match response.txn with
      | some c =>
        let resp := { response with txn := none }
        let m := t.merge_context c
        match m.2 with
        | some e => ⟨m.1, .error e, [RpcCall.query req]⟩
        | none => ⟨m.1, .ok resp, [RpcCall.query req]⟩
      | none => ⟨t, .ok response, [RpcCall.query req]⟩

/-- `Transaction::mutate`: builds a request holding only the mutations and
delegates to `do_request`. -/
def Transaction.mutate (t : Transaction) (mus : List Mutation)
    (reply : Except String Response) : DoReqOut :=
  t.do_request { Request.default with mutations := mus } reply

/-- `Transaction::do_query` (backing `query` / `query_with_vars`). -/
def Transaction.do_query (t : Transaction) (query : String)
    (var : List (String × String)) (reply : Except String Response) : DoReqOut :=
  t.do_request { Request.default with query := query, vars := var } reply

/-- Result of a finalize-path call (`commit` / `discard` /
`commit_or_abort`): state after the call, Rust return value, RPCs issued. -/
structure FinOut where
  txn : Transaction
  result : Except DgraphError Unit
  calls : List RpcCall
deriving Repr, DecidableEq

/-- `Transaction::commit_or_abort`.  `reply` is the server's answer to the
`commit_or_abort` RPC (its payload is ignored by the driver, only the
error case matters). -/
def Transaction.commit_or_abort (t : Transaction)
    (reply : Except String TxnContext) : FinOut :=
  if t.finished then ⟨t, .ok (), []⟩
  else
    let t := { t with finished := true }
    if !t.mutated then ⟨t, .ok (), []⟩
    else
      let t := { t with
        ctx := { t.ctx with keys := t.ctx.keys ++ t.keys
                            preds := t.ctx.preds ++ t.preds }
        keys := []
        preds := [] }
      let sent := t.ctx
      let t := { t with ctx := TxnContext.default }
      match reply with
      | .error s => ⟨t, .error (DgraphError.Status s), [RpcCall.commitOrAbort sent]⟩
      | .ok _ => ⟨t, .ok (), [RpcCall.commitOrAbort sent]⟩

/-- `Transaction::discard`: set `ctx.aborted` and finalize. -/
def Transaction.discard (t : Transaction)
    (reply : Except String TxnContext) : FinOut :=
  let t := { t with ctx := { t.ctx with aborted := true } }
  t.commit_or_abort reply

/-- `Transaction::commit`: error if already finished, otherwise finalize. -/
def Transaction.commit (t : Transaction)
    (reply : Except String TxnContext) : FinOut :=
  if t.finished then
    ⟨t, .error (DgraphError.InvalidArgument "Transaction already finished"), []⟩
  else
    t.commit_or_abort reply

/-- `impl Drop for Transaction`: when `!dropped && !finished && mutated`,
swap `self` with `Self::default()`, set `dropped` on the moved-out value
and hand it to a detached background task that will run `discard()`.  The
model returns the residual value left in place and `some payload` for the
spawned task (or `none` when nothing is spawned); the asynchronous task
itself is modelled by applying `Transaction.discard` to the payload. -/
def Transaction.drop (t : Transaction) : Transaction × Option Transaction :=
  if !t.dropped && !t.finished && t.mutated then
    (Transaction.default, some { t with dropped := true })
  else
    (t, none)

/-- A resolved network endpoint (`tonic::transport::Endpoint`); only its
address string matters to the embedding. -/
structure Endpoint where
  uri : String
deriving Repr, DecidableEq

/-- The `EndpointAddresses` enum of `src/client.rs`: three address-list
shapes.  `Static` holds a `&'static Vec<String>` and `StaticStr` a
`Vec<&'static str>`; both are modelled as `List String`. -/
inductive EndpointAddresses where
  | Static (v : List String)
  | Owned (v : List String)
  | StaticStr (v : List String)
deriving Repr, DecidableEq

/-- Outcome of resolving an address list: the endpoint list, or process
termination (`std::process::exit(code)` in the `Owned` arm), or a panic
(`Endpoint::from_static` panics on an invalid literal). -/
inductive Resolved where
  | ok (eps : List Endpoint)
  | processExit (code : Nat)
  | panicked (msg : String)
deriving Repr, DecidableEq

/-- Resolve the addresses in order with the external URI parser `parse`
(`Endpoint::from_shared` / `from_static`); the first failure yields
`onFail`, as the failing closure inside `map(...).collect()` does. -/
def resolveAll (parse : String → Option Endpoint) (onFail : Resolved) :
    List String → Resolved
  | [] => .ok []
  | u :: rest =>
    match parse u with
    | none => onFail
    | some e =>
      match resolveAll parse onFail rest with
      | .ok es => .ok (e :: es)
      | r => r

/-- `EndpointAddresses::to_endpoints`.  The external URI parser is passed
in as `parse`.  In the `Owned` arm a malformed address runs
`eprintln!` + `std::process::exit(1)`; in the static arms
`Endpoint::from_static` panics on a malformed literal. -/
def EndpointAddresses.to_endpoints (parse : String → Option Endpoint) :
    EndpointAddresses → Resolved
  | .Static v => resolveAll parse (.panicked "invalid uri") v
  | .Owned v => resolveAll parse (.processExit 1) v
  | .StaticStr v => resolveAll parse (.panicked "invalid uri") v

/-- The `DgraphConnectionManager` of `src/pool.rs`. -/
structure DgraphConnectionManager where
  endpoints : EndpointAddresses
deriving Repr, DecidableEq

/-- Outcome of `DgraphConnectionManager::create`: a client over the
balanced channel spanning the resolved endpoints, or the process exit /
panic escaping from `to_endpoints`.  The associated error type of the Rust
impl is `tonic::Status` and the body never returns `Err`, so the model has
no error outcome at all — in particular no Transport error. -/
inductive CreateResult where
  | ok (eps : List Endpoint)
  | processExit (code : Nat)
  | panicked (msg : String)
deriving Repr, DecidableEq

/-- `DgraphConnectionManager::create`: `Channel::balance_list` over the
lazily resolved endpoints, wrapped as `DgraphClient::new` — it cannot fail
with an error; a malformed owned address escapes as a process exit. -/
def DgraphConnectionManager.create (parse : String → Option Endpoint)
    (m : DgraphConnectionManager) : CreateResult :=
  match m.endpoints.to_endpoints parse with
  | .ok eps => .ok eps
  | .processExit c => .processExit c
  | .panicked s => .panicked s

/-- The `Client` struct of `src/client.rs`: the two per-instance flags;
the pooled connection handle carries no data relevant to the embedding. -/
structure Client where
  best_effort : Bool
  read_only : Bool
deriving Repr, DecidableEq

/-- `Client::new(inner, read_only, best_effort)` (argument order as in the
source). -/
def Client.new (read_only : Bool) (best_effort : Bool) : Client :=
  { best_effort := best_effort, read_only := read_only }

/-- `DgraphPool::get_readonly`: wraps a pooled connection as
`Client::new(x, true, false)`. -/
def DgraphPool.get_readonly : Client := Client.new true false

/-- `DgraphPool::get_best_effort`: wraps a pooled connection as
`Client::new(x, true, true)`. -/
def DgraphPool.get_best_effort : Client := Client.new true true

/-- `DgraphPool::get`: wraps a pooled connection as
`Client::new(x, false, false)`. -/
def DgraphPool.get : Client := Client.new false false

/-- `Client::do_request`: sends the request and unwraps the reply;
a gRPC status error becomes `DgraphError::Status` via `?`. -/
def Client.do_request (reply : Except String Response) :
    Except DgraphError Response :=
  match reply with
  | .error s => .error (DgraphError.Status s)
  | .ok r => .ok r

/-- `Client::query`: the request it builds and sends. -/
def Client.query (c : Client) (query : String) : Request :=
  { Request.default with
    query := query
    read_only := c.read_only
    best_effort := c.best_effort
    commit_now := true }

/-- `Client::query_with_vars`: the request it builds and sends. -/
def Client.query_with_vars (c : Client) (query : String)
    (var : List (String × String)) : Request :=
  { Request.default with
    query := query
    vars := var
    read_only := c.read_only
    best_effort := c.best_effort
    commit_now := true }

/-- `Client::mutate`: the request it builds and sends (note: only
`mutations` and `commit_now` are set, the rest is `Default::default()`). -/
def Client.mutate (_c : Client) (mus : List Mutation) : Request :=
  { Request.default with mutations := mus, commit_now := true }

/-- `Client::upsert`: the request it builds and sends (note: only `query`,
`mutations` and `commit_now` are set). -/
def Client.upsert (_c : Client) (query : String) (mus : List Mutation) :
    Request :=
  { Request.default with query := query, mutations := mus, commit_now := true }

/-- `Client::upsert_with_vars`: the request it builds and sends (note:
only `query`, `vars`, `mutations` and `commit_now` are set). -/
def Client.upsert_with_vars (_c : Client) (query : String)
    (var : List (String × String)) (mus : List Mutation) : Request :=
  { Request.default with
    query := query
    vars := var
    mutations := mus
    commit_now := true }

/-- `Result::is_ok`. -/
def isOk {ε α : Type} : Except ε α → Bool
  | .ok _ => true
  | .error _ => false

/-- `true` exactly on results whose error is the `Transaction` variant of
`DgraphError`. -/
def resultErrorClassIsTransaction : Except DgraphError Response → Bool
  | .error e => e.isTransactionClass
  | .ok _ => false

/-- `true` exactly when a `create` outcome is a process termination. -/
def CreateResult.terminatesProcess : CreateResult → Bool
  | .processExit _ => true
  | _ => false

/-- Concrete stand-in for the external URI parser (`Endpoint::from_shared`):
accepts the one well-formed test address, rejects everything else. -/
def sampleParse (s : String) : Option Endpoint :=
  if s = "http://good" then some ⟨s⟩ else none

/-- Test fixture: a mutation payload. -/
def muA : Mutation := { set_nquads := "na" }

/-- Test fixture: a second mutation payload. -/
def muB : Mutation := { set_nquads := "nb" }

/-- Test fixture: server reply carrying `start_ts = 7`, key `a`. -/
def respA7 : Response :=
  { json := "", txn := some { start_ts := 7, hash := "h1", keys := ["a"] } }

/-- Test fixture: server reply carrying `start_ts = 7`, key `b`. -/
def respB7 : Response :=
  { json := "", txn := some { start_ts := 7, hash := "h2", keys := ["b"] } }

/-- Scenario of spec §8.7, first round trip: mutation, reply
`start_ts = 7, keys = [a]`. -/
def c2_step1 : DoReqOut := Transaction.new.mutate [muA] (Except.ok respA7)

/-- Scenario of spec §8.7, second round trip: mutation, reply
`start_ts = 7, keys = [b]`. -/
def c2_step2 : DoReqOut := c2_step1.txn.mutate [muB] (Except.ok respB7)

/-- Scenario of spec §8.7: the final `commit()`. -/
def c2_fin : FinOut := c2_step2.txn.commit (Except.ok TxnContext.default)

/-- A transaction that mutated once (reply `start_ts = 7, keys = [a]`) and
has not finished. -/
def mutatedTx : Transaction := (Transaction.new.mutate [muA] (Except.ok respA7)).txn

/-- A transaction that mutated and was then committed. -/
def committedTx : Transaction := (mutatedTx.commit (Except.ok TxnContext.default)).txn

/-- A `do_request` attempted on an already committed transaction. -/
def afterCommitReq : DoReqOut :=
  committedTx.do_request Request.default (Except.ok { json := "ok" })

/-- Fixture for the merge algebra: local `start_ts = 5`. -/
def c1_t : Transaction := { Transaction.new with ctx := { start_ts := 5 } }

/-- Fixture for the merge algebra: echoed `start_ts = 6`. -/
def c1_c : TxnContext := { start_ts := 6 }

/-- Fixture: a request with mutations and inline `commit_now`. -/
def c5_req : Request := { Request.default with mutations := [muA], commit_now := true }

/-- Fixture: the state after a successful inline-commit request. -/
def c5_out : DoReqOut := Transaction.new.do_request c5_req (Except.ok respA7)

/-- Fixture for the merge algebra: a transaction already holding a key and
a predicate. -/
def c9_t : Transaction := { Transaction.new with keys := ["x"], preds := ["w"] }

/-- Fixture contexts for the merge algebra. -/
def c9_c1 : TxnContext := { start_ts := 5, keys := ["a", "b"], preds := ["p"] }

/-- Fixture contexts for the merge algebra. -/
def c9_c2 : TxnContext := { start_ts := 5, keys := ["b", "c"], preds := ["q"] }

/-- Merge `c9_c1` into `c9_t`. -/
def c9_u1 : Transaction := (c9_t.merge_context c9_c1).1

/-- Then merge `c9_c2`. -/
def c9_u12 : Transaction := (c9_u1.merge_context c9_c2).1

/-- Merge `c9_c2` into `c9_t`. -/
def c9_u2 : Transaction := (c9_t.merge_context c9_c2).1

/-- Then merge `c9_c1`. -/
def c9_u21 : Transaction := (c9_u2.merge_context c9_c1).1

/-! ## Lemmas about the `HashSet` model -/

theorem mem_hsInsert (s : List String) (a k : String) :
    k ∈ hsInsert s a ↔ k ∈ s ∨ k = a := by
  unfold hsInsert
  split
  · rename_i h
    constructor
    · exact Or.inl
    · rintro (hk | rfl)
      · exact hk
      · exact h
  · simp [List.mem_append]

theorem mem_foldl_hsInsert (l s : List String) (k : String) :
    k ∈ l.foldl hsInsert s ↔ k ∈ s ∨ k ∈ l := by
  induction l generalizing s with
  | nil => simp
  | cons a rest ih =>
    rw [List.foldl_cons, ih, mem_hsInsert]
    simp only [List.mem_cons]
    tauto

theorem nodup_hsInsert (s : List String) (a : String) (h : s.Nodup) :
    (hsInsert s a).Nodup := by
  unfold hsInsert
  split
  · exact h
  · rename_i ha
    simp [List.nodup_append, h, ha]

theorem nodup_foldl_hsInsert (l s : List String) (h : s.Nodup) :
    (l.foldl hsInsert s).Nodup := by
  induction l generalizing s with
  | nil => simpa
  | cons a rest ih => rw [List.foldl_cons]; exact ih _ (nodup_hsInsert s a h)

theorem foldl_hsInsert_eq_self (l s : List String) (h : ∀ k ∈ l, k ∈ s) :
    l.foldl hsInsert s = s := by
  induction l generalizing s with
  | nil => rfl
  | cons a rest ih =>
    rw [List.foldl_cons]
    have ha : hsInsert s a = s := by
      unfold hsInsert
      rw [if_pos (h a (List.mem_cons_self a rest))]
    rw [ha]
    exact ih s fun k hk => h k (List.mem_cons_of_mem a hk)

/-! ## Lemmas about `merge_context` -/

theorem merge_context_ok (t : Transaction) (c : TxnContext)
    (h : t.ctx.start_ts = 0 ∨ t.ctx.start_ts = c.start_ts) :
    t.merge_context c =
      ({ t with ctx := { t.ctx with hash := c.hash, start_ts := c.start_ts }
                keys := c.keys.foldl hsInsert t.keys
                preds := c.preds.foldl hsInsert t.preds }, none) := by
  rcases h with h | h
  · simp [Transaction.merge_context, h]
  · by_cases h0 : t.ctx.start_ts = 0
    · simp [Transaction.merge_context, h0, h0 ▸ h]
    · simp [Transaction.merge_context, h0, h]

theorem merge_context_err (t : Transaction) (c : TxnContext)
    (h0 : t.ctx.start_ts ≠ 0) (h1 : t.ctx.start_ts ≠ c.start_ts) :
    t.merge_context c =
      ({ t with ctx := { t.ctx with hash := c.hash } },
        some (DgraphError.InvalidArgument "Transaction start_ts mismatch")) := by
  simp [Transaction.merge_context, h0, h1]

theorem merge_context_ok_iff (t : Transaction) (c : TxnContext) :
    (t.merge_context c).2 = none ↔
      (t.ctx.start_ts = 0 ∨ t.ctx.start_ts = c.start_ts) := by
  by_cases h0 : t.ctx.start_ts = 0
  · simp [merge_context_ok t c (Or.inl h0), h0]
  · by_cases h1 : t.ctx.start_ts = c.start_ts
    · simp [merge_context_ok t c (Or.inr h1), h1]
    · simp [merge_context_err t c h0 h1, h0, h1]

theorem merge_context_finished (t : Transaction) (c : TxnContext) :
    (t.merge_context c).1.finished = t.finished := by
  by_cases h0 : t.ctx.start_ts = 0
  · simp [merge_context_ok t c (Or.inl h0)]
  · by_cases h1 : t.ctx.start_ts = c.start_ts
    · simp [merge_context_ok t c (Or.inr h1)]
    · simp [merge_context_err t c h0 h1]

/-! ## Lemmas about `do_request` and the finalize path -/

theorem do_request_of_finished (t : Transaction) (req : Request)
    (reply : Except String Response) (h : t.finished = true) :
    t.do_request req reply =
      ⟨t, .error (DgraphError.InvalidArgument "Transaction already finished"), []⟩ := by
  simp [Transaction.do_request, h]

theorem commit_or_abort_txn_finished (t : Transaction)
    (reply : Except String TxnContext) :
    (t.commit_or_abort reply).txn.finished = true := by
  by_cases hf : t.finished = true
  · simp [Transaction.commit_or_abort, hf]
  · by_cases hm : t.mutated = true
    · cases reply <;> simp [Transaction.commit_or_abort, hf, hm]
    · simp [Transaction.commit_or_abort, hf, hm]

theorem commit_txn_finished (t : Transaction) (reply : Except String TxnContext) :
    (t.commit reply).txn.finished = true := by
  unfold Transaction.commit
  split
  · rename_i h; exact h
  · exact commit_or_abort_txn_finished t reply

theorem discard_txn_finished (t : Transaction) (reply : Except String TxnContext) :
    (t.discard reply).txn.finished = true := by
  unfold Transaction.discard
  exact commit_or_abort_txn_finished _ reply

/-! ## Claim theorems -/

/-- C1: for every transaction whose local `start_ts` is nonzero, merging a
returned context whose `start_ts` differs fails with the start_ts-mismatch
error and leaves the transaction's `start_ts` unchanged; a nonzero local
`start_ts` is never overwritten, and a returned `start_ts` is adopted
exactly when the local value is still 0. -/
theorem merge_context_start_ts_protocol (t : Transaction) (c : TxnContext) :
    (t.ctx.start_ts ≠ 0 → c.start_ts ≠ t.ctx.start_ts →
        (t.merge_context c).2 =
            some (DgraphError.InvalidArgument "Transaction start_ts mismatch")
      ∧ (t.merge_context c).1.ctx.start_ts = t.ctx.start_ts)
  ∧ (t.ctx.start_ts ≠ 0 → (t.merge_context c).1.ctx.start_ts = t.ctx.start_ts)
  ∧ (t.ctx.start_ts = 0 → (t.merge_context c).1.ctx.start_ts = c.start_ts) := by
  refine ⟨fun h0 h1 => ?_, fun h0 => ?_, fun h0 => ?_⟩
  · rw [merge_context_err t c h0 (fun h => h1 h.symm)]
    exact ⟨rfl, rfl⟩
  · by_cases h1 : t.ctx.start_ts = c.start_ts
    · rw [merge_context_ok t c (Or.inr h1)]
      exact h1.symm
    · rw [merge_context_err t c h0 h1]
  · rw [merge_context_ok t c (Or.inl h0)]

/-- C1 witness: local `start_ts = 5`, echoed `start_ts = 6` — the merge
fails and the local timestamp stays 5. -/
theorem merge_context_start_ts_protocol_witness :
    (c1_t.merge_context c1_c).2 =
        some (DgraphError.InvalidArgument "Transaction start_ts mismatch")
  ∧ (c1_t.merge_context c1_c).1.ctx.start_ts = c1_t.ctx.start_ts :=
  (merge_context_start_ts_protocol c1_t c1_c).1 (by decide) (by decide)

/-- C2: two mutating round trips answering `start_ts = 7` with conflict
keys `[a]` then `[b]`, followed by `commit()`, issue a single finalize RPC
carrying `start_ts = 7` and exactly the keys `a` and `b`. -/
theorem txn_two_round_trip_commit_scenario :
    c2_step1.result = Except.ok { json := "", txn := none }
  ∧ c2_step2.result = Except.ok { json := "", txn := none }
  ∧ c2_fin.result = Except.ok ()
  ∧ c2_fin.calls =
      [RpcCall.commitOrAbort
        { start_ts := 7, commit_ts := 0, hash := "h2", aborted := false,
          keys := ["a", "b"], preds := [] }] := by
  exact ⟨rfl, rfl, rfl, rfl⟩

/-- C3 counterexample: a committed transaction rejects a further
`do_request` with `DgraphError.InvalidArgument`, not with the
`DgraphError.Transaction` variant that the spec's taxonomy singles out as
the transaction-protocol class. -/
theorem finished_reuse_error_class_cex :
    committedTx.finished = true
  ∧ afterCommitReq.result =
      Except.error (DgraphError.InvalidArgument "Transaction already finished")
  ∧ resultErrorClassIsTransaction afterCommitReq.result = false := by
  exact ⟨rfl, rfl, rfl⟩

/-- C3 (amended): after `commit()` or `discard()` the transaction is
finished and every subsequent `do_request` fails with
`DgraphError.InvalidArgument "Transaction already finished"` (the code
reuses the invalid-argument variant rather than the dedicated
transaction-protocol variant) and issues no RPC. -/
theorem finished_transaction_rejects_requests (t : Transaction)
    (replyFin : Except String TxnContext) (req : Request)
    (reply : Except String Response) :
    (t.commit replyFin).txn.finished = true
  ∧ (t.discard replyFin).txn.finished = true
  ∧ ((t.commit replyFin).txn.do_request req reply).result =
      Except.error (DgraphError.InvalidArgument "Transaction already finished")
  ∧ ((t.commit replyFin).txn.do_request req reply).calls = []
  ∧ ((t.discard replyFin).txn.do_request req reply).result =
      Except.error (DgraphError.InvalidArgument "Transaction already finished")
  ∧ ((t.discard replyFin).txn.do_request req reply).calls = [] := by
  have hc := commit_txn_finished t replyFin
  have hd := discard_txn_finished t replyFin
  rw [do_request_of_finished _ req reply hc, do_request_of_finished _ req reply hd]
  exact ⟨hc, hd, rfl, rfl, rfl, rfl⟩

theorem do_request_status_error (t : Transaction) (req : Request) (s : String)
    (hf : t.finished = false) :
    (t.do_request req (Except.error s)).result =
      Except.error (DgraphError.Status s) := by
  by_cases hmu : req.mutations.isEmpty <;> simp [Transaction.do_request, hf, hmu]

theorem do_request_txn_finished_of_ok (t : Transaction) (req : Request)
    (response : Response) (hf : t.finished = false) (hc : req.commit_now = true) :
    (t.do_request req (Except.ok response)).txn.finished = true := by
  cases hresp : response.txn with
  | none =>
    by_cases hmu : req.mutations.isEmpty <;>
      simp [Transaction.do_request, hf, hc, hmu, hresp]
  | some c =>
    by_cases hmu : req.mutations.isEmpty <;>
      · simp only [Transaction.do_request, hf, hc, hmu, hresp]
        simp only [Bool.false_eq_true, if_false, if_true]
        split <;> simp [merge_context_finished]

/-- C5: a `do_request` whose request carries inline `commit_now = true` and
that succeeds leaves the transaction finished, and every further
`do_request` on it fails without issuing an RPC. -/
theorem commit_now_marks_finished (t : Transaction) (req : Request)
    (reply : Except String Response) (hc : req.commit_now = true)
    (hok : isOk (t.do_request req reply).result = true) :
    (t.do_request req reply).txn.finished = true
  ∧ ∀ (req2 : Request) (reply2 : Except String Response),
      ((t.do_request req reply).txn.do_request req2 reply2).result =
        Except.error (DgraphError.InvalidArgument "Transaction already finished")
      ∧ ((t.do_request req reply).txn.do_request req2 reply2).calls = [] := by
  have hf : t.finished = false := by
    rcases Bool.eq_false_or_eq_true t.finished with h1 | h1
    · rw [do_request_of_finished t req reply h1] at hok
      simp [isOk] at hok
    · exact h1
  have hfin : (t.do_request req reply).txn.finished = true := by
    cases reply with
    | error s =>
      rw [do_request_status_error t req s hf] at hok
      simp [isOk] at hok
    | ok response => exact do_request_txn_finished_of_ok t req response hf hc
  refine ⟨hfin, fun req2 reply2 => ?_⟩
  rw [do_request_of_finished _ req2 reply2 hfin]
  exact ⟨rfl, rfl⟩

/-- C5 witness: a fresh transaction, one mutating request with
`commit_now = true` answered successfully — the transaction is finished and
the next call fails with no RPC. -/
theorem commit_now_marks_finished_witness :
    c5_out.txn.finished = true
  ∧ (c5_out.txn.do_request Request.default (Except.ok respA7)).result =
      Except.error (DgraphError.InvalidArgument "Transaction already finished")
  ∧ (c5_out.txn.do_request Request.default (Except.ok respA7)).calls = [] := by
  have h := commit_now_marks_finished Transaction.new c5_req (Except.ok respA7)
    (by decide) (by decide)
  exact ⟨h.1, (h.2 Request.default (Except.ok respA7)).1,
    (h.2 Request.default (Except.ok respA7)).2⟩

/-- C6: committing a transaction that never mutated succeeds, marks it
finished and issues no RPC at all. -/
theorem commit_never_mutated_no_rpc (t : Transaction)
    (reply : Except String TxnContext)
    (hf : t.finished = false) (hm : t.mutated = false) :
    (t.commit reply).result = Except.ok ()
  ∧ (t.commit reply).txn.finished = true
  ∧ (t.commit reply).calls = [] := by
  simp [Transaction.commit, Transaction.commit_or_abort, hf, hm]

/-- C6 witness: committing a fresh transaction issues no RPC and succeeds
even though the (never consulted) server reply would be an error. -/
theorem commit_never_mutated_no_rpc_witness :
    (Transaction.new.commit (Except.error "boom")).result = Except.ok ()
  ∧ (Transaction.new.commit (Except.error "boom")).txn.finished = true
  ∧ (Transaction.new.commit (Except.error "boom")).calls = [] :=
  commit_never_mutated_no_rpc Transaction.new (Except.error "boom") rfl rfl

theorem drop_none_of_finished (t : Transaction) (h : t.finished = true) :
    (t.drop).2 = none := by
  simp [Transaction.drop, h]

/-- C10: the finalize routine marks `finished` and drains the local
keys/preds and context before the RPC, so even when the finalize RPC fails
the transaction stays finished with its context consumed, a retried
`commit` fails without an RPC, the drop path spawns no further abort, and
the single finalize RPC already carried the flushed context. -/
theorem finalize_once_even_on_error (t : Transaction) (s : String)
    (hf : t.finished = false) (hm : t.mutated = true) :
    (t.commit_or_abort (Except.error s)).result =
        Except.error (DgraphError.Status s)
  ∧ (t.commit_or_abort (Except.error s)).txn.finished = true
  ∧ (t.commit_or_abort (Except.error s)).txn.keys = []
  ∧ (t.commit_or_abort (Except.error s)).txn.preds = []
  ∧ (t.commit_or_abort (Except.error s)).txn.ctx = TxnContext.default
  ∧ (t.commit_or_abort (Except.error s)).calls =
      [RpcCall.commitOrAbort
        { t.ctx with keys := t.ctx.keys ++ t.keys
                     preds := t.ctx.preds ++ t.preds }]
  ∧ (∀ reply2 : Except String TxnContext,
      ((t.commit_or_abort (Except.error s)).txn.commit reply2).result =
        Except.error (DgraphError.InvalidArgument "Transaction already finished")
      ∧ ((t.commit_or_abort (Except.error s)).txn.commit reply2).calls = [])
  ∧ ((t.commit_or_abort (Except.error s)).txn.drop).2 = none := by
  have hfin := commit_or_abort_txn_finished t (Except.error s)
  refine ⟨?_, hfin, ?_, ?_, ?_, ?_,
    fun reply2 => ⟨?_, ?_⟩, drop_none_of_finished _ hfin⟩ <;>
    simp [Transaction.commit, Transaction.commit_or_abort, hf, hm, hfin]

/-- C10 witness: a mutated, unfinished transaction whose finalize RPC
errors — the state is drained, finished, and no second finalize can run. -/
theorem finalize_once_even_on_error_witness :
    (mutatedTx.commit_or_abort (Except.error "boom")).result =
        Except.error (DgraphError.Status "boom")
  ∧ (mutatedTx.commit_or_abort (Except.error "boom")).txn.finished = true
  ∧ (mutatedTx.commit_or_abort (Except.error "boom")).txn.keys = []
  ∧ (mutatedTx.commit_or_abort (Except.error "boom")).txn.preds = []
  ∧ (mutatedTx.commit_or_abort (Except.error "boom")).txn.ctx = TxnContext.default
  ∧ (mutatedTx.commit_or_abort (Except.error "boom")).calls =
      [RpcCall.commitOrAbort
        { mutatedTx.ctx with keys := mutatedTx.ctx.keys ++ mutatedTx.keys
                             preds := mutatedTx.ctx.preds ++ mutatedTx.preds }]
  ∧ ((mutatedTx.commit_or_abort (Except.error "boom")).txn.commit
        (Except.ok TxnContext.default)).result =
      Except.error (DgraphError.InvalidArgument "Transaction already finished")
  ∧ ((mutatedTx.commit_or_abort (Except.error "boom")).txn.commit
        (Except.ok TxnContext.default)).calls = []
  ∧ ((mutatedTx.commit_or_abort (Except.error "boom")).txn.drop).2 = none := by
  have h := finalize_once_even_on_error mutatedTx "boom" (by decide) (by decide)
  exact ⟨h.1, h.2.1, h.2.2.1, h.2.2.2.1, h.2.2.2.2.1, h.2.2.2.2.2.1,
    (h.2.2.2.2.2.2.1 (Except.ok TxnContext.default)).1,
    (h.2.2.2.2.2.2.1 (Except.ok TxnContext.default)).2,
    h.2.2.2.2.2.2.2⟩

/-- C4: dropping a transaction with `mutated ∧ ¬finished ∧ ¬dropped`
leaves a default value in place, hands the owned state (context,
connection) — flagged as handled via `dropped := true` — to exactly one
spawned background task, whose `discard` issues exactly one abort RPC
(context with `aborted = true` and the flushed keys/preds); neither the
residual value nor the transaction after the background discard can
trigger a second finalize from the drop path. -/
theorem drop_spawns_single_abort (t : Transaction)
    (reply : Except String TxnContext)
    (hm : t.mutated = true) (hf : t.finished = false) (hd : t.dropped = false) :
    t.drop = (Transaction.default, some { t with dropped := true })
  ∧ ({ t with dropped := true } : Transaction).ctx = t.ctx
  ∧ ({ t with dropped := true } : Transaction).conn = t.conn
  ∧ (({ t with dropped := true } : Transaction).discard reply).calls =
      [RpcCall.commitOrAbort
        { t.ctx with aborted := true
                     keys := t.ctx.keys ++ t.keys
                     preds := t.ctx.preds ++ t.preds }]
  ∧ (({ t with dropped := true } : Transaction).discard reply).txn.finished = true
  ∧ (Transaction.default.drop).2 = none
  ∧ ((({ t with dropped := true } : Transaction).discard reply).txn.drop).2 =
      none := by
  refine ⟨?_, rfl, rfl, ?_, discard_txn_finished _ reply, ?_,
    drop_none_of_finished _ (discard_txn_finished _ reply)⟩
  · simp [Transaction.drop, hm, hf, hd]
  · cases reply <;>
      simp [Transaction.discard, Transaction.commit_or_abort, hf, hm]
  · simp [Transaction.drop, Transaction.default]

/-- C4 witness: the mutated, unfinished fixture transaction. -/
theorem drop_spawns_single_abort_witness :
    mutatedTx.drop = (Transaction.default, some { mutatedTx with dropped := true })
  ∧ ({ mutatedTx with dropped := true } : Transaction).ctx = mutatedTx.ctx
  ∧ ({ mutatedTx with dropped := true } : Transaction).conn = mutatedTx.conn
  ∧ (({ mutatedTx with dropped := true } : Transaction).discard
        (Except.ok TxnContext.default)).calls =
      [RpcCall.commitOrAbort
        { mutatedTx.ctx with aborted := true
                             keys := mutatedTx.ctx.keys ++ mutatedTx.keys
                             preds := mutatedTx.ctx.preds ++ mutatedTx.preds }]
  ∧ (({ mutatedTx with dropped := true } : Transaction).discard
        (Except.ok TxnContext.default)).txn.finished = true
  ∧ (Transaction.default.drop).2 = none
  ∧ ((({ mutatedTx with dropped := true } : Transaction).discard
        (Except.ok TxnContext.default)).txn.drop).2 = none :=
  drop_spawns_single_abort mutatedTx (Except.ok TxnContext.default)
    (by decide) (by decide) (by decide)

/-- C7 counterexample: a best-effort `Client` (flags `read_only = true`,
`best_effort = true`) builds its `mutate` request with
`read_only = false` and `best_effort = false` — the request does not carry
the Client's fixed flags, contradicting the claim for the `mutate`,
`upsert` and `upsert_with_vars` operations. -/
theorem client_flags_cex :
    DgraphPool.get_best_effort.read_only = true
  ∧ DgraphPool.get_best_effort.best_effort = true
  ∧ (DgraphPool.get_best_effort.mutate [muA]).read_only = false
  ∧ (DgraphPool.get_best_effort.mutate [muA]).best_effort = false
  ∧ (DgraphPool.get_best_effort.upsert "q" [muA]).read_only = false
  ∧ (DgraphPool.get_best_effort.upsert "q" [muA]).best_effort = false := by
  exact ⟨rfl, rfl, rfl, rfl, rfl, rfl⟩

/-- C7 (amended): every Client operation builds its request with
`commit_now = true`; `query` and `query_with_vars` carry the Client's
fixed `read_only`/`best_effort` flags — so a best-effort Client requests
read-only servicing on every query — while `mutate`, `upsert` and
`upsert_with_vars` leave both flags at their default `false` regardless of
the Client's flags. -/
theorem client_request_flags (c : Client) (q : String)
    (var : List (String × String)) (mus : List Mutation) :
    (c.query q).commit_now = true
  ∧ (c.query q).read_only = c.read_only
  ∧ (c.query q).best_effort = c.best_effort
  ∧ (c.query_with_vars q var).commit_now = true
  ∧ (c.query_with_vars q var).read_only = c.read_only
  ∧ (c.query_with_vars q var).best_effort = c.best_effort
  ∧ (c.mutate mus).commit_now = true
  ∧ (c.mutate mus).read_only = false
  ∧ (c.mutate mus).best_effort = false
  ∧ (c.upsert q mus).commit_now = true
  ∧ (c.upsert q mus).read_only = false
  ∧ (c.upsert q mus).best_effort = false
  ∧ (c.upsert_with_vars q var mus).commit_now = true
  ∧ (c.upsert_with_vars q var mus).read_only = false
  ∧ (c.upsert_with_vars q var mus).best_effort = false
  ∧ (DgraphPool.get_best_effort.query q).read_only = true
  ∧ (DgraphPool.get_best_effort.query q).best_effort = true := by
  exact ⟨rfl, rfl, rfl, rfl, rfl, rfl, rfl, rfl, rfl, rfl, rfl, rfl, rfl,
    rfl, rfl, rfl, rfl⟩

/-- C8 counterexample: an owned endpoint list holding one malformed
address is constructed unvalidated; when the pool manager lazily resolves
it inside `create`, the process is terminated with exit code 1 — `create`
does not surface a Transport error to the caller (its result type has no
error outcome at all). -/
theorem owned_malformed_cex :
    (DgraphConnectionManager.mk (EndpointAddresses.Owned ["bad url"])).create
        sampleParse = CreateResult.processExit 1
  ∧ CreateResult.terminatesProcess
      ((DgraphConnectionManager.mk
          (EndpointAddresses.Owned ["bad url"])).create sampleParse) = true := by
  exact ⟨rfl, rfl⟩

/-- C8 (amended): a malformed address in an owned endpoint list is not
rejected when the list is constructed; it is only hit during lazy
resolution inside the pool manager's `create`, which then terminates the
process with exit code 1 instead of surfacing any error (and `create`
cannot return a Transport error). -/
theorem owned_resolution_process_exit (parse : String → Option Endpoint)
    (urls : List String) (u : String) (hu : u ∈ urls)
    (hbad : parse u = none) :
    (EndpointAddresses.Owned urls).to_endpoints parse = Resolved.processExit 1
  ∧ (DgraphConnectionManager.mk (EndpointAddresses.Owned urls)).create parse =
      CreateResult.processExit 1 := by
  have h : resolveAll parse (Resolved.processExit 1) urls =
      Resolved.processExit 1 := by
    induction urls with
    | nil => cases hu
    | cons a rest ih =>
      rcases List.mem_cons.mp hu with rfl | hmem
      · simp [resolveAll, hbad]
      · unfold resolveAll
        cases hp : parse a with
        | none => rfl
        | some e => simp [ih hmem]
  refine ⟨h, ?_⟩
  simp [DgraphConnectionManager.create, EndpointAddresses.to_endpoints, h]

/-- C8 witness: the list `[http://good, bad url]` — the well-formed prefix
resolves, the malformed second entry terminates the process inside
`create`. -/
theorem owned_resolution_process_exit_witness :
    (EndpointAddresses.Owned ["http://good", "bad url"]).to_endpoints
        sampleParse = Resolved.processExit 1
  ∧ (DgraphConnectionManager.mk
        (EndpointAddresses.Owned ["http://good", "bad url"])).create
        sampleParse = CreateResult.processExit 1 :=
  owned_resolution_process_exit sampleParse ["http://good", "bad url"]
    "bad url" (by decide) (by decide)

theorem merge_context_mem_keys (t : Transaction) (c : TxnContext)
    (t' : Transaction) (h : t.merge_context c = (t', none)) (k : String) :
    k ∈ t'.keys ↔ k ∈ t.keys ∨ k ∈ c.keys := by
  have hP : t.ctx.start_ts = 0 ∨ t.ctx.start_ts = c.start_ts :=
    (merge_context_ok_iff t c).mp (by rw [h])
  rw [merge_context_ok t c hP] at h
  injection h with h1 _
  subst h1
  simp [mem_foldl_hsInsert]

theorem merge_context_mem_preds (t : Transaction) (c : TxnContext)
    (t' : Transaction) (h : t.merge_context c = (t', none)) (k : String) :
    k ∈ t'.preds ↔ k ∈ t.preds ∨ k ∈ c.preds := by
  have hP : t.ctx.start_ts = 0 ∨ t.ctx.start_ts = c.start_ts :=
    (merge_context_ok_iff t c).mp (by rw [h])
  rw [merge_context_ok t c hP] at h
  injection h with h1 _
  subst h1
  simp [mem_foldl_hsInsert]

theorem merge_context_idem (t : Transaction) (c : TxnContext)
    (t' : Transaction) (h : t.merge_context c = (t', none)) :
    t'.merge_context c = (t', none) := by
  have hP : t.ctx.start_ts = 0 ∨ t.ctx.start_ts = c.start_ts :=
    (merge_context_ok_iff t c).mp (by rw [h])
  rw [merge_context_ok t c hP] at h
  injection h with h1 _
  subst h1
  rw [merge_context_ok _ c (Or.inr rfl)]
  have hk : c.keys.foldl hsInsert (c.keys.foldl hsInsert t.keys) =
      c.keys.foldl hsInsert t.keys :=
    foldl_hsInsert_eq_self _ _
      (fun k hk => (mem_foldl_hsInsert _ _ _).mpr (Or.inr hk))
  have hp : c.preds.foldl hsInsert (c.preds.foldl hsInsert t.preds) =
      c.preds.foldl hsInsert t.preds :=
    foldl_hsInsert_eq_self _ _
      (fun k hk => (mem_foldl_hsInsert _ _ _).mpr (Or.inr hk))
  simp [hk, hp]

theorem merge_context_keys_grow (t : Transaction) (c : TxnContext)
    (k : String) (hk : k ∈ t.keys) : k ∈ (t.merge_context c).1.keys := by
  by_cases h0 : t.ctx.start_ts = 0
  · rw [merge_context_ok t c (Or.inl h0)]
    simp [mem_foldl_hsInsert, hk]
  · by_cases h1 : t.ctx.start_ts = c.start_ts
    · rw [merge_context_ok t c (Or.inr h1)]
      simp [mem_foldl_hsInsert, hk]
    · rw [merge_context_err t c h0 h1]
      exact hk

theorem merge_context_preds_grow (t : Transaction) (c : TxnContext)
    (k : String) (hk : k ∈ t.preds) : k ∈ (t.merge_context c).1.preds := by
  by_cases h0 : t.ctx.start_ts = 0
  · rw [merge_context_ok t c (Or.inl h0)]
    simp [mem_foldl_hsInsert, hk]
  · by_cases h1 : t.ctx.start_ts = c.start_ts
    · rw [merge_context_ok t c (Or.inr h1)]
      simp [mem_foldl_hsInsert, hk]
    · rw [merge_context_err t c h0 h1]
      exact hk

theorem merge_context_keys_nodup (t : Transaction) (c : TxnContext)
    (h : t.keys.Nodup) : (t.merge_context c).1.keys.Nodup := by
  by_cases h0 : t.ctx.start_ts = 0
  · rw [merge_context_ok t c (Or.inl h0)]
    exact nodup_foldl_hsInsert _ _ h
  · by_cases h1 : t.ctx.start_ts = c.start_ts
    · rw [merge_context_ok t c (Or.inr h1)]
      exact nodup_foldl_hsInsert _ _ h
    · rw [merge_context_err t c h0 h1]
      exact h

theorem merge_context_preds_nodup (t : Transaction) (c : TxnContext)
    (h : t.preds.Nodup) : (t.merge_context c).1.preds.Nodup := by
  by_cases h0 : t.ctx.start_ts = 0
  · rw [merge_context_ok t c (Or.inl h0)]
    exact nodup_foldl_hsInsert _ _ h
  · by_cases h1 : t.ctx.start_ts = c.start_ts
    · rw [merge_context_ok t c (Or.inr h1)]
      exact nodup_foldl_hsInsert _ _ h
    · rw [merge_context_err t c h0 h1]
      exact h

/-- C9: `merge_context` acts on the key/predicate sets by union alone —
merging the same context twice is a no-op after the first merge, a
successful merge yields exactly the union (membership under string
equality), keys/preds never shrink (even on a failed merge), merging
preserves freedom from duplicates, and the order of two successful merges
does not matter for the resulting sets. -/
theorem merge_context_set_algebra (t : Transaction) (c c1 c2 : TxnContext) :
    (∀ t' : Transaction,
      t.merge_context c = (t', none) → t'.merge_context c = (t', none))
  ∧ ((t.merge_context c).2 = none → ∀ k : String,
        (k ∈ (t.merge_context c).1.keys ↔ k ∈ t.keys ∨ k ∈ c.keys)
      ∧ (k ∈ (t.merge_context c).1.preds ↔ k ∈ t.preds ∨ k ∈ c.preds))
  ∧ (∀ k : String,
        (k ∈ t.keys → k ∈ (t.merge_context c).1.keys)
      ∧ (k ∈ t.preds → k ∈ (t.merge_context c).1.preds))
  ∧ (t.keys.Nodup → (t.merge_context c).1.keys.Nodup)
  ∧ (t.preds.Nodup → (t.merge_context c).1.preds.Nodup)
  ∧ (∀ u1 u12 u2 u21 : Transaction,
      t.merge_context c1 = (u1, none) → u1.merge_context c2 = (u12, none) →
      t.merge_context c2 = (u2, none) → u2.merge_context c1 = (u21, none) →
      ∀ k : String,
        (k ∈ u12.keys ↔ k ∈ u21.keys) ∧ (k ∈ u12.preds ↔ k ∈ u21.preds)) := by
  refine ⟨fun t' h => merge_context_idem t c t' h,
    fun hnone k => ?_,
    fun k => ⟨merge_context_keys_grow t c k, merge_context_preds_grow t c k⟩,
    merge_context_keys_nodup t c,
    merge_context_preds_nodup t c,
    fun u1 u12 u2 u21 h1 h12 h2 h21 k => ?_⟩
  · have hpair : t.merge_context c = ((t.merge_context c).1, none) := by
      rw [← hnone]
    exact ⟨merge_context_mem_keys t c _ hpair k,
      merge_context_mem_preds t c _ hpair k⟩
  · constructor
    · rw [merge_context_mem_keys u1 c2 u12 h12 k,
        merge_context_mem_keys t c1 u1 h1 k,
        merge_context_mem_keys u2 c1 u21 h21 k,
        merge_context_mem_keys t c2 u2 h2 k]
      tauto
    · rw [merge_context_mem_preds u1 c2 u12 h12 k,
        merge_context_mem_preds t c1 u1 h1 k,
        merge_context_mem_preds u2 c1 u21 h21 k,
        merge_context_mem_preds t c2 u2 h2 k]
      tauto

/-- C9 witness: concrete merges of contexts with keys `[a,b]` / `[b,c]`
into a transaction already holding key `x` and predicate `w`. -/
theorem merge_context_set_algebra_witness :
    c9_u1.merge_context c9_c1 = (c9_u1, none)
  ∧ ("x" ∈ c9_u1.keys ↔ "x" ∈ c9_t.keys ∨ "x" ∈ c9_c1.keys)
  ∧ ("p" ∈ c9_u1.preds ↔ "p" ∈ c9_t.preds ∨ "p" ∈ c9_c1.preds)
  ∧ ("x" ∈ c9_t.keys → "x" ∈ c9_u1.keys)
  ∧ ("w" ∈ c9_t.preds → "w" ∈ c9_u1.preds)
  ∧ c9_u1.keys.Nodup
  ∧ c9_u1.preds.Nodup
  ∧ ("c" ∈ c9_u12.keys ↔ "c" ∈ c9_u21.keys)
  ∧ ("p" ∈ c9_u12.preds ↔ "p" ∈ c9_u21.preds) := by
  have h := merge_context_set_algebra c9_t c9_c1 c9_c1 c9_c2
  exact ⟨h.1 c9_u1 (by decide),
    (h.2.1 (by decide) "x").1,
    (h.2.1 (by decide) "p").2,
    (h.2.2.1 "x").1,
    (h.2.2.1 "w").2,
    h.2.2.2.1 (by decide),
    h.2.2.2.2.1 (by decide),
    (h.2.2.2.2.2 c9_u1 c9_u12 c9_u2 c9_u21 (by decide) (by decide)
      (by decide) (by decide) "c").1,
    (h.2.2.2.2.2 c9_u1 c9_u12 c9_u2 c9_u21 (by decide) (by decide)
      (by decide) (by decide) "p").2⟩

end Dgraph
